import Mathlib

/-!
Verification of the VictoriaLogs batching log shipper
(`internal/logger/config.go`, `internal/logger/interface.go`).

Go maps are mutable reference values, so field maps live in an explicit
heap (`Heap`) and loggers/entries hold references (`Nat` indices) into it;
a `nil` Go map is `Option.none`.  Fallible operations (a Go `panic` such as
writing to a nil map or closing a closed channel) return `Option.none`.
Wall-clock time and the network are passed in explicitly: timestamps are
parameters, and a delivery sender is an oracle `Nat → Bool` giving the
outcome of each attempt.
-/

namespace VictoriaLogs

/-- Log levels, `interface.go`: DEBUG < INFO < WARN < ERROR < FATAL. -/
inductive LogLevel where
  | DEBUG | INFO | WARN | ERROR | FATAL
  deriving Repr, DecidableEq

/-- `LogLevel.String()` as used when building the wire entry. -/
def LogLevel.toStr : LogLevel → String
  | .DEBUG => "DEBUG"
  | .INFO => "INFO"
  | .WARN => "WARN"
  | .ERROR => "ERROR"
  | .FATAL => "FATAL"

/-- A Go `interface{}` value stored in a fields map.  `unserializable`
models values `encoding/json` cannot marshal (functions, channels, NaN). -/
inductive GoValue where
  | str : String → GoValue
  | int : Int → GoValue
  | boolean : Bool → GoValue
  | null : GoValue
  | unserializable : GoValue
  deriving Repr, DecidableEq

/-- Contents of a Go `map[string]interface{}`: an association list with
unique keys, last-write-wins on insert. -/
abbrev FieldsMap := List (String × GoValue)

/-- `m[k] = v` on a Go map: replace an existing binding or append. -/
def insertField (m : FieldsMap) (k : String) (v : GoValue) : FieldsMap :=
  if (m.map Prod.fst).contains k then
    m.map (fun p => if p.1 = k then (k, v) else p)
  else m ++ [(k, v)]

/-- Map lookup `m[k]`. -/
def lookupField (m : FieldsMap) (k : String) : Option GoValue :=
  (m.find? (fun p => p.1 = k)).map Prod.snd

/-- `for k, v := range src { dst[k] = v }` (iteration in list order). -/
def writeAll (dst src : FieldsMap) : FieldsMap :=
  src.foldl (fun m p => insertField m p.1 p.2) dst

/-- The heap of live Go maps; a map reference is an index into `maps`. -/
structure Heap where
  maps : List FieldsMap
  deriving Repr, DecidableEq

/-- Allocate a fresh map holding `m`; returns the heap and the new ref. -/
def Heap.alloc (h : Heap) (m : FieldsMap) : Heap × Nat :=
  ({ maps := h.maps ++ [m] }, h.maps.length)

/-- Dereference a map (out-of-range reads as empty, never reached on
well-formed states). -/
def Heap.get (h : Heap) (r : Nat) : FieldsMap :=
  h.maps.getD r []

/-- Overwrite the map at reference `r`. -/
def Heap.set (h : Heap) (r : Nat) (m : FieldsMap) : Heap :=
  { maps := h.maps.set r m }

/-- `LogEntry` (`interface.go`): the buffered record.  `Fields` is a map
reference (`none` = nil map), exactly as a Go struct holds a map header. -/
structure LogEntry where
  Level : LogLevel
  Message : String
  Timestamp : Int
  Service : String
  TraceID : String
  UserID : String
  Fields : Option Nat
  deriving Repr, DecidableEq

/-- The per-instance part of `VictoriaLogsLogger`: its service name and a
reference to its `contextFields` map.  Buffer, client and lifecycle state
are shared and modelled separately. -/
structure LoggerInst where
  serviceName : String
  ctxRef : Nat
  deriving Repr, DecidableEq

/-- `createLogEntry` (`config.go:320`): builds the entry with the
caller-supplied map as its `Fields` (no copy), then writes every context
field into that same map.  Writing into a nil map is a Go panic, hence
`none`; `time.Now().UnixNano()` is the `ts` parameter. -/
def createLogEntry (h : Heap) (lg : LoggerInst) (level : LogLevel)
    (msg : String) (ts : Int) (fields : Option Nat) :
    Option (Heap × LogEntry) :=
  let ctxf := h.get lg.ctxRef
  let entry : LogEntry :=
    { Level := level, Message := msg, Timestamp := ts,
      Service := lg.serviceName, TraceID := "", UserID := "",
      Fields := fields }
  match fields with
  | none => if ctxf = [] then some (h, entry) else none
  | some r => some (h.set r (writeAll (h.get r) ctxf), entry)

/-- `WithFields` (`config.go:89`): allocates a fresh empty map, copies the
parent's context fields into it, then writes the given fields. -/
def WithFields (h : Heap) (lg : LoggerInst) (fields : FieldsMap) :
    Heap × LoggerInst :=
  let merged := writeAll (writeAll [] (h.get lg.ctxRef)) fields
  let (h2, r) := h.alloc merged
  (h2, { lg with ctxRef := r })

/-- `WithService` (`config.go:112`): fresh copy of the parent's context
fields, with the service name replaced. -/
def WithService (h : Heap) (lg : LoggerInst) (service : String) :
    Heap × LoggerInst :=
  let (h2, r) := h.alloc (writeAll [] (h.get lg.ctxRef))
  (h2, { serviceName := service, ctxRef := r })

/-- `WithContext` (`config.go:69`): fresh copy of the parent's context
fields (the stored Go context does not affect the field map). -/
def WithContext (h : Heap) (lg : LoggerInst) : Heap × LoggerInst :=
  let (h2, r) := h.alloc (writeAll [] (h.get lg.ctxRef))
  (h2, { lg with ctxRef := r })

/-- A value stored in a Go `context.Context` under a string key: either
text (a `string`) or a value of some other dynamic type. -/
inductive CtxVal where
  | str : String → CtxVal
  | other : CtxVal
  deriving Repr, DecidableEq

/-- A Go context, as seen through `ctx.Value` lookups by string key. -/
abbrev GoContext := List (String × CtxVal)

/-- `ctx.Value(key)`: `none` models a `nil` result. -/
def ctxValue (ctx : GoContext) (k : String) : Option CtxVal :=
  (ctx.find? (fun p => p.1 = k)).map Prod.snd

/-- The correlation block of `log` (`config.go:297`): a non-nil value of
text type under "trace_id" / "user_id" populates the entry; anything
else leaves the field untouched.  The checked type assertion never
faults. -/
def applyCorrelation (ctx : GoContext) (e : LogEntry) : LogEntry :=
  let e1 :=
    match ctxValue ctx "trace_id" with
    | some (.str tid) => { e with TraceID := tid }
    | _ => e
  match ctxValue ctx "user_id" with
  | some (.str uid) => { e1 with UserID := uid }
  | _ => e1

/-- Entry production of `log` (`config.go:294`): `createLogEntry`
followed by the correlation lookups, before the async/sync dispatch. -/
def logProduce (h : Heap) (lg : LoggerInst) (ctx : GoContext)
    (level : LogLevel) (msg : String) (ts : Int) (fields : Option Nat) :
    Option (Heap × LogEntry) :=
  match createLogEntry h lg level msg ts fields with
  | none => none
  | some (h2, e) => some (h2, applyCorrelation ctx e)

/-- The bounded buffer channel `buffer chan LogEntry`. -/
structure Buffer where
  cap : Nat
  items : List LogEntry
  deriving Repr, DecidableEq

/-- Non-blocking send `select \x7b case buffer <- e: default: \x7d`:
enqueues when below capacity, otherwise drops; `Bool` reports whether the
entry was enqueued. -/
def Buffer.offer (b : Buffer) (e : LogEntry) : Buffer × Bool :=
  if b.items.length < b.cap then
    ({ b with items := b.items ++ [e] }, true)
  else (b, false)

/-- The configuration fields the logging paths read. -/
structure LoggerConfig where
  Async : Bool
  MaxRetries : Nat
  deriving Repr, DecidableEq

/-- Outcome of one `sendBatch` call: attempts made, the seconds slept
after each failed attempt (in order), and whether some attempt
succeeded. -/
structure RetryTrace where
  attempts : Nat
  delays : List Nat
  delivered : Bool
  deriving Repr, DecidableEq

/-- The retry loop of `sendBatch` (`config.go:254`):
`for i := 0; i < maxRetries; i++`, returning on success, sleeping
`(i+1)` seconds after every failed attempt.  `sender i` is the outcome of
the attempt made at loop index `i`; `fuel` is the number of remaining
loop iterations. -/
def retryFrom (sender : Nat → Bool) : Nat → Nat → RetryTrace
  | _, 0 => ⟨0, [], false⟩
  | i, fuel + 1 =>
    if sender i then ⟨1, [], true⟩
    else
      let t := retryFrom sender (i + 1) fuel
      ⟨t.attempts + 1, (i + 1) :: t.delays, t.delivered⟩

/-- JSON rendering of one field value; `none` where `json.Marshal`
errors.  String escaping is abstracted (no claim depends on it). -/
def renderValue : GoValue → Option String
  | .str s => some ("\"" ++ s ++ "\"")
  | .int n => some (toString n)
  | .boolean b => some (cond b "true" "false")
  | .null => some "null"
  | .unserializable => none

/-- Renders the `"k":v` members of a fields object; fails if any value is
unserializable. -/
def renderPairs : FieldsMap → Option (List String)
  | [] => some []
  | (k, v) :: rest => do
    let rv ← renderValue v
    let rs ← renderPairs rest
    pure (("\"" ++ k ++ "\":" ++ rv) :: rs)

/-- `json.Marshal` of the `VictoriaLogsEntry` built from a `LogEntry`
(`config.go:231`): fails exactly when some field value is
unserializable.  A nil fields map marshals as an absent `fields`
member. -/
def marshalEntry (h : Heap) (e : LogEntry) : Option String :=
  let fm : FieldsMap := match e.Fields with | none => [] | some r => h.get r
  match renderPairs fm with
  | none => none
  | some ps =>
    some ("\x7b\"_msg\":\"" ++ e.Message ++ "\",\"_time\":" ++
      toString e.Timestamp ++ ",\"level\":\"" ++ e.Level.toStr ++
      "\",\"service\":\"" ++ e.Service ++ "\"" ++
      (if e.TraceID = "" then "" else ",\"trace_id\":\"" ++ e.TraceID ++ "\"") ++
      (if e.UserID = "" then "" else ",\"user_id\":\"" ++ e.UserID ++ "\"") ++
      (if fm.isEmpty then ""
       else ",\"fields\":\x7b" ++ String.intercalate "," ps ++ "\x7d") ++ "\x7d")

/-- The serialization loop of `sendBatch` (`config.go:229`): an entry
whose marshal fails is skipped (`continue`); each success appends its
line and a newline to the payload. -/
def buildPayload (h : Heap) (batch : List LogEntry) : String :=
  batch.foldl (fun acc e =>
    match marshalEntry h e with
    | none => acc
    | some line => acc ++ line ++ "\n") ""

/-- The payload handed to delivery plus the retry outcome. -/
structure SendResult where
  payload : String
  trace : RetryTrace
  deriving Repr, DecidableEq

/-- `sendBatch` (`config.go:222`): an empty batch returns at once with no
delivery attempt; otherwise the payload is built once and the retry loop
runs.  The function returns no error to its caller. -/
def sendBatch (h : Heap) (batch : List LogEntry) (maxRetries : Nat)
    (sender : Nat → Bool) : SendResult :=
  if batch = [] then ⟨"", ⟨0, [], false⟩⟩
  else ⟨buildPayload h batch, retryFrom sender 0 maxRetries⟩

/-- The loop of `BatchLog`'s async branch (`config.go:154`): each entry
is offered with a non-blocking send; the first full buffer aborts with
the "buffer full" error, leaving earlier entries enqueued. -/
def offerAll (buf : Buffer) : List LogEntry → Buffer × Option String
  | [] => (buf, none)
  | e :: rest =>
    let (b2, ok) := buf.offer e
    if ok then offerAll b2 rest else (b2, some "buffer full")

/-- `BatchLog` (`config.go:152`): async mode enqueues, sync mode calls
`sendBatch` and returns `nil` unconditionally.  Result: the buffer, the
send outcome (trivial in async mode), and the returned error. -/
def BatchLog (cfg : LoggerConfig) (h : Heap) (buf : Buffer)
    (entries : List LogEntry) (sender : Nat → Bool) :
    Buffer × SendResult × Option String :=
  if cfg.Async then
    let (b2, err) := offerAll buf entries
    (b2, ⟨"", ⟨0, [], false⟩⟩, err)
  else
    (buf, sendBatch h entries cfg.MaxRetries sender, none)

/-- The async branch of `log` (`config.go:309`): produce the entry, then
a non-blocking send into the buffer; a full buffer drops the entry and
the function returns normally with nothing to report. -/
def logAsync (h : Heap) (lg : LoggerInst) (buf : Buffer) (ctx : GoContext)
    (level : LogLevel) (msg : String) (ts : Int) (fields : Option Nat) :
    Option (Heap × Buffer) :=
  match logProduce h lg ctx level msg ts fields with
  | none => none
  | some (h2, e) => some (h2, (buf.offer e).1)

/-- The sync branch of `log` (`config.go:314`): produce the entry and
call `sendBatch` inline; the per-level call itself returns no value. -/
def logSync (h : Heap) (lg : LoggerInst) (ctx : GoContext)
    (level : LogLevel) (msg : String) (ts : Int) (fields : Option Nat)
    (maxRetries : Nat) (sender : Nat → Bool) : Option (Heap × SendResult) :=
  match logProduce h lg ctx level msg ts fields with
  | none => none
  | some (h2, e) => some (h2, sendBatch h2 [e] maxRetries sender)

/-- One wake-up of the worker's `select` (`config.go:198`): an entry
arrival, a ticker tick, or the cancellation signal. -/
inductive WorkerEvent where
  | arrival : LogEntry → WorkerEvent
  | tick : WorkerEvent
  | cancel : WorkerEvent
  deriving Repr, DecidableEq

/-- Worker-loop state: the in-progress batch, the batches handed to
`sendBatch` so far (in order), and whether the goroutine has returned. -/
structure WorkerState where
  batch : List LogEntry
  deliveries : List (List LogEntry)
  stopped : Bool
  deriving Repr, DecidableEq

/-- One iteration of the worker loop in `startAsyncProcessing`
(`config.go:197`): an arrival appends to the batch and flushes it
immediately; a tick flushes a non-empty batch; cancellation flushes a
non-empty batch and returns. -/
def workerStep (s : WorkerState) (ev : WorkerEvent) : WorkerState :=
  if s.stopped then s
  else
    match ev with
    | .arrival e =>
      { batch := [], deliveries := s.deliveries ++ [s.batch ++ [e]],
        stopped := false }
    | .tick =>
      { batch := [],
        deliveries :=
          if s.batch = [] then s.deliveries else s.deliveries ++ [s.batch],
        stopped := false }
    | .cancel =>
      { batch := s.batch,
        deliveries :=
          if s.batch = [] then s.deliveries else s.deliveries ++ [s.batch],
        stopped := true }

/-- The worker loop over a finite schedule of wake-ups. -/
def workerRun (s : WorkerState) (evs : List WorkerEvent) : WorkerState :=
  evs.foldl workerStep s

/-- Lifecycle state shared by `Close` and the worker: the cancellation
flag, whether the worker goroutine is live, its in-progress batch, the
closed flags of the two channels, and the batches the worker flushed
while shutting down. -/
structure LifecycleState where
  cancelled : Bool
  workerRunning : Bool
  pending : List LogEntry
  bufferClosed : Bool
  batchChanClosed : Bool
  flushedOnClose : List (List LogEntry)
  deriving Repr, DecidableEq

/-- `close(ch)`: Go panics when the channel is already closed. -/
def closeChan (closed : Bool) : Option Bool :=
  if closed then none else some true

/-- `Close` (`config.go:180`): `cancel()`, then `wg.Wait()` — during
which a live worker observes `ctx.Done()`, flushes its non-empty
in-progress batch once and returns — then `close(buffer)` and
`close(batchChan)`, each a panic if already closed. -/
def Close (s : LifecycleState) : Option LifecycleState := do
  let s1 := { s with cancelled := true }
  let flushed := if s1.pending = [] then [] else [s1.pending]
  let s2 :=
    if s1.workerRunning then
      { s1 with
        workerRunning := false
        pending := ([] : List LogEntry)
        flushedOnClose := s1.flushedOnClose ++ flushed }
    else s1
  let bc ← closeChan s2.bufferClosed
  let cc ← closeChan s2.batchChanClosed
  some { s2 with bufferClosed := bc, batchChanClosed := cc }

/-- A demonstration entry used by concrete witnesses. -/
def eDemo : LogEntry :=
  { Level := .INFO, Message := "Create new User", Timestamp := 0,
    Service := "demo-api", TraceID := "", UserID := "", Fields := none }

/-- Parent/child context-map references after a derivation: they are
distinct, the parent's map is untouched by the derivation, and writing a
field through either reference leaves the map behind the other
unchanged (so neither logger's later entries pick up the other's
addition). -/
def IndependentCopy (h h2 : Heap) (pr cr : Nat) : Prop :=
  cr ≠ pr ∧
  h2.get pr = h.get pr ∧
  (∀ k v, (h2.set cr (insertField (h2.get cr) k v)).get pr = h2.get pr) ∧
  (∀ k v, (h2.set pr (insertField (h2.get pr) k v)).get cr = h2.get cr)

/-- The retry behavior of `sendBatch` on a batch: under total failure,
exactly `mr` attempts with sleeps of `1s, 2s, …, mr s` and the batch
dropped with nothing returned to the producer; under
fail-fail-succeed (with `mr ≥ 3`), exactly three attempts with sleeps
of 1s then 2s. -/
def RetrySchedule (h : Heap) (batch : List LogEntry) (mr : Nat)
    (sender : Nat → Bool) : Prop :=
  ((∀ j, sender j = false) →
    sendBatch h batch mr sender =
      ⟨buildPayload h batch, ⟨mr, List.range' 1 mr, false⟩⟩) ∧
  (sender 0 = false → sender 1 = false → sender 2 = true → 3 ≤ mr →
    sendBatch h batch mr sender =
      ⟨buildPayload h batch, ⟨3, [1, 2], true⟩⟩)

/-- Synchronous-mode behavior on total delivery failure: `BatchLog`
returns no error, the inline send exhausted all `mr` attempts
undelivered, and the per-level path completes returning nothing. -/
def SyncSwallows (cfg : LoggerConfig) (h : Heap) (buf : Buffer)
    (entries : List LogEntry) (lg : LoggerInst) (ctx : GoContext)
    (level : LogLevel) (msg : String) (ts : Int) (r : Nat)
    (sender : Nat → Bool) : Prop :=
  (BatchLog cfg h buf entries sender).2.2 = none ∧
  (entries ≠ [] →
    (BatchLog cfg h buf entries sender).2.1.trace =
      ⟨cfg.MaxRetries, List.range' 1 cfg.MaxRetries, false⟩) ∧
  (∃ h2 sr, logSync h lg ctx level msg ts (some r) cfg.MaxRetries sender =
    some (h2, sr) ∧ sr.trace.delivered = false)

/-- What `createLogEntry` actually does with a non-nil caller map: the
buffered entry's `Fields` is the caller's reference itself (no copy),
and the caller's map now holds the context fields written into it. -/
def SharedFieldsMap (h : Heap) (lg : LoggerInst) (level : LogLevel)
    (msg : String) (ts : Int) (r : Nat) : Prop :=
  createLogEntry h lg level msg ts (some r) =
    some (h.set r (writeAll (h.get r) (h.get lg.ctxRef)),
      { Level := level, Message := msg, Timestamp := ts,
        Service := lg.serviceName, TraceID := "", UserID := "",
        Fields := some r }) ∧
  (h.set r (writeAll (h.get r) (h.get lg.ctxRef))).get r =
    writeAll (h.get r) (h.get lg.ctxRef)

/-- The worker's arrival handling: one step on a dequeued entry flushes
the batch extended with that entry immediately, and a run over arrivals
from an empty batch yields one singleton delivery per entry, in order. -/
def ArrivalFlush (s : WorkerState) (e : LogEntry)
    (entries : List LogEntry) : Prop :=
  workerStep s (.arrival e) =
    ⟨[], s.deliveries ++ [s.batch ++ [e]], false⟩ ∧
  (s.batch = [] → workerRun s (entries.map WorkerEvent.arrival) =
    ⟨[], s.deliveries ++ entries.map (fun x => [x]), false⟩)

/-- All three derivation operations produce an independent merged copy
of the parent's context-field map. -/
def CopyOnDerive (h : Heap) (lg : LoggerInst) (fields : FieldsMap)
    (service : String) : Prop :=
  (IndependentCopy h (WithFields h lg fields).1 lg.ctxRef
      (WithFields h lg fields).2.ctxRef ∧
    (WithFields h lg fields).1.get (WithFields h lg fields).2.ctxRef =
      writeAll (writeAll [] (h.get lg.ctxRef)) fields) ∧
  (IndependentCopy h (WithService h lg service).1 lg.ctxRef
      (WithService h lg service).2.ctxRef ∧
    (WithService h lg service).1.get (WithService h lg service).2.ctxRef =
      writeAll [] (h.get lg.ctxRef)) ∧
  (IndependentCopy h (WithContext h lg).1 lg.ctxRef
      (WithContext h lg).2.ctxRef ∧
    (WithContext h lg).1.get (WithContext h lg).2.ctxRef =
      writeAll [] (h.get lg.ctxRef))

/-- Full-buffer behavior: a non-blocking offer drops the entry, the
per-level async path completes with the buffer unchanged and nothing
reported, and `BatchLog` returns the distinct "buffer full" error. -/
def Backpressure (h : Heap) (lg : LoggerInst) (buf : Buffer)
    (ctx : GoContext) (level : LogLevel) (msg : String) (ts : Int)
    (r : Nat) (e : LogEntry) (rest : List LogEntry) (cfg : LoggerConfig)
    (sender : Nat → Bool) : Prop :=
  Buffer.offer buf e = (buf, false) ∧
  (∃ h2, logAsync h lg buf ctx level msg ts (some r) = some (h2, buf)) ∧
  (cfg.Async = true →
    BatchLog cfg h buf (e :: rest) sender =
      (buf, ⟨"", ⟨0, [], false⟩⟩, some "buffer full"))

/-- A batch containing one unmarshalable entry: the payload is exactly
the lines of the other entries, in order, and delivery of that payload
still proceeds through the retry loop. -/
def SkipBadEntry (h : Heap) (pre post : List LogEntry) (bad : LogEntry)
    (mr : Nat) (sender : Nat → Bool) : Prop :=
  buildPayload h (pre ++ bad :: post) =
    buildPayload h pre ++ buildPayload h post ∧
  sendBatch h (pre ++ bad :: post) mr sender =
    ⟨buildPayload h pre ++ buildPayload h post, retryFrom sender 0 mr⟩

/-- Ten distinct entries submitted in rapid succession. -/
def tenEntries : List LogEntry :=
  (List.range 10).map (fun i => { eDemo with Timestamp := (i : Int) })

theorem heap_get_alloc_old (h : Heap) (m : FieldsMap) (r : Nat)
    (hr : r < h.maps.length) : (h.alloc m).1.get r = h.get r := by
  simp [Heap.alloc, Heap.get, List.getD, List.getElem?_append_left hr]

theorem heap_get_alloc_new (h : Heap) (m : FieldsMap) :
    (h.alloc m).1.get (h.alloc m).2 = m := by
  simp [Heap.alloc, Heap.get, List.getD]

theorem heap_get_set_other (h : Heap) (r s : Nat) (m : FieldsMap)
    (hrs : r ≠ s) : (h.set r m).get s = h.get s := by
  simp [Heap.set, Heap.get, List.getD, List.getElem?_set_ne hrs]

theorem heap_get_set_at (h : Heap) (r : Nat) (m : FieldsMap)
    (hr : r < h.maps.length) : (h.set r m).get r = m := by
  simp [Heap.set, Heap.get, List.getD, List.getElem?_set_self, hr]

theorem retryFrom_allFail (sender : Nat → Bool)
    (hf : ∀ j, sender j = false) :
    ∀ fuel i, retryFrom sender i fuel =
      ⟨fuel, List.range' (i + 1) fuel, false⟩ := by
  intro fuel
  induction fuel with
  | zero => intro i; simp [retryFrom]
  | succ n ih =>
    intro i
    simp only [retryFrom, hf i, Bool.false_eq_true, if_false, ih (i + 1)]
    rw [List.range'_succ]

theorem payload_foldl_acc (h : Heap) (batch : List LogEntry)
    (acc : String) :
    batch.foldl (fun a e =>
      match marshalEntry h e with
      | none => a
      | some line => a ++ line ++ "\n") acc = acc ++ buildPayload h batch := by
  induction batch generalizing acc with
  | nil => simp [buildPayload]
  | cons e rest ih =>
    simp only [buildPayload, List.foldl_cons]
    cases hm : marshalEntry h e with
    | none => simp only [hm, ih]; rw [String.empty_append]
    | some line =>
      simp only [hm, ih]
      simp [String.append_assoc, String.empty_append]

theorem buildPayload_append (h : Heap) (xs ys : List LogEntry) :
    buildPayload h (xs ++ ys) = buildPayload h xs ++ buildPayload h ys := by
  simp only [buildPayload, List.foldl_append]
  rw [payload_foldl_acc]
  rfl

theorem buildPayload_cons_none (h : Heap) (e : LogEntry)
    (rest : List LogEntry) (he : marshalEntry h e = none) :
    buildPayload h (e :: rest) = buildPayload h rest := by
  simp only [buildPayload, List.foldl_cons, he]

theorem workerRun_arrivals (entries : List LogEntry) :
    ∀ del, workerRun ⟨[], del, false⟩ (entries.map WorkerEvent.arrival) =
      ⟨[], del ++ entries.map (fun e => [e]), false⟩ := by
  induction entries with
  | nil => intro del; simp [workerRun]
  | cons e rest ih =>
    intro del
    simp only [List.map_cons, workerRun, List.foldl_cons]
    have hstep : workerStep ⟨[], del, false⟩ (WorkerEvent.arrival e) =
        ⟨[], del ++ [[e]], false⟩ := by
      simp [workerStep]
    rw [hstep]
    have := ih (del ++ [[e]])
    simp only [workerRun] at this
    rw [this]
    simp

/-- C1 counterexample: with `maxRetries = 3`, a non-empty batch and a
sender that fails every attempt, `sendBatch` performs exactly 3 delivery
attempts, not the `maxRetries + 1 = 4` the claim states. -/
theorem C1_counterexample :
    (sendBatch ⟨[]⟩ [eDemo] 3 (fun _ => false)).trace.attempts = 3 ∧
    (sendBatch ⟨[]⟩ [eDemo] 3 (fun _ => false)).trace.attempts ≠ 3 + 1 := by
  constructor <;> decide

/-- C1 (amended): for a non-empty batch, when every delivery attempt
fails `sendBatch` makes exactly `maxRetries` attempts — not
`maxRetries + 1` — sleeping `(i+1)` seconds after failed attempt `i`
(1s, 2s, …), and drops the batch without returning any error to the
producer; when the first two attempts fail and the third succeeds (which
requires `maxRetries ≥ 3`), exactly three attempts occur with delays of
1s then 2s. -/
theorem C1_retrySchedule (h : Heap) (batch : List LogEntry) (mr : Nat)
    (sender : Nat → Bool) (hne : batch ≠ []) :
    RetrySchedule h batch mr sender := by
  constructor
  · intro hf
    simp only [sendBatch, if_neg hne, retryFrom_allFail sender hf mr 0,
      Nat.zero_add]
  · intro h0 h1 h2 hmr
    obtain ⟨k, rfl⟩ : ∃ k, mr = k + 3 := ⟨mr - 3, by omega⟩
    simp only [sendBatch, if_neg hne]
    simp [retryFrom, h0, h1, h2]

/-- C1 witness: the retry schedule at `maxRetries = 3` on a singleton
batch. -/
theorem C1_retrySchedule_witness :
    ([eDemo] ≠ []) ∧ RetrySchedule ⟨[]⟩ [eDemo] 3 (fun _ => false) :=
  ⟨by decide, C1_retrySchedule ⟨[]⟩ [eDemo] 3 (fun _ => false) (by decide)⟩

/-- C2: on a running logger the first `Close` flushes the worker's
non-empty in-progress batch exactly once and succeeds; but a second
`Close` hits Go's `close` of an already-closed channel and panics,
contradicting the claim that a repeated close is a no-op or a reported
error, never a crash. -/
theorem C2_doubleClosePanics :
    Close ⟨false, true, [eDemo], false, false, []⟩ =
      some ⟨true, false, [], true, true, [[eDemo]]⟩ ∧
    Close ⟨true, false, [], true, true, [[eDemo]]⟩ = none := by
  constructor <;> rfl

/-- C3 counterexample: in synchronous mode with a sender failing every
attempt, `BatchLog` returns no error and the inline delivery ended
undelivered — the failure is not reported to the caller, contrary to the
claim. -/
theorem C3_counterexample :
    (BatchLog ⟨false, 3⟩ ⟨[]⟩ ⟨500, []⟩ [eDemo] (fun _ => false)).2.2 =
      none ∧
    (BatchLog ⟨false, 3⟩ ⟨[]⟩ ⟨500, []⟩ [eDemo]
      (fun _ => false)).2.1.trace.delivered = false := by
  constructor <;> rfl

/-- C3 (amended): in synchronous mode a delivery failure after all
retries is NOT reported to the caller: `BatchLog` returns `nil`
unconditionally even though every attempt failed, and the per-level
path completes returning no value at all. -/
theorem C3_syncSwallowsFailure (cfg : LoggerConfig) (h : Heap)
    (buf : Buffer) (entries : List LogEntry) (lg : LoggerInst)
    (ctx : GoContext) (level : LogLevel) (msg : String) (ts : Int)
    (r : Nat) (sender : Nat → Bool) (hsync : cfg.Async = false)
    (hfail : ∀ j, sender j = false) :
    SyncSwallows cfg h buf entries lg ctx level msg ts r sender := by
  refine ⟨?_, ?_, ?_⟩
  · simp [BatchLog, hsync]
  · intro hne
    simp [BatchLog, hsync, sendBatch, hne, retryFrom_allFail sender hfail]
  · refine ⟨_, _, rfl, ?_⟩
    simp [sendBatch, retryFrom_allFail sender hfail]

/-- C3 witness: synchronous config with `maxRetries = 3`, an
always-failing sender and a singleton batch. -/
theorem C3_syncSwallowsFailure_witness :
    (LoggerConfig.Async ⟨false, 3⟩ = false) ∧
    SyncSwallows ⟨false, 3⟩ ⟨[]⟩ ⟨500, []⟩ [eDemo] ⟨"demo-api", 0⟩ []
      .INFO "m" 0 0 (fun _ => false) :=
  ⟨rfl, C3_syncSwallowsFailure ⟨false, 3⟩ ⟨[]⟩ ⟨500, []⟩ [eDemo]
    ⟨"demo-api", 0⟩ [] .INFO "m" 0 0 (fun _ => false) rfl (fun _ => rfl)⟩

/-- C4 counterexample: on the heap holding the caller's map
`{"a": 1}` at reference 1 and a logger with no context fields, the
buffered entry's `Fields` is reference 1 itself — the very object the
caller supplied — and the caller's subsequent write of `a = 2` through
that reference changes what the buffered entry's fields read. -/
theorem C4_counterexample :
    createLogEntry ⟨[[], [("a", GoValue.int 1)]]⟩ ⟨"svc", 0⟩ .INFO "m" 0
        (some 1) =
      some (⟨[[], [("a", GoValue.int 1)]]⟩,
        { Level := .INFO, Message := "m", Timestamp := 0, Service := "svc",
          TraceID := "", UserID := "", Fields := some 1 }) ∧
    Heap.get (Heap.set ⟨[[], [("a", GoValue.int 1)]]⟩ 1
      (insertField (Heap.get ⟨[[], [("a", GoValue.int 1)]]⟩ 1) "a"
        (GoValue.int 2))) 1 = [("a", GoValue.int 2)] := by
  constructor <;> decide

/-- C4 (amended): the buffered entry's fields map IS the
caller-supplied map — `createLogEntry` stores the caller's reference in
the entry without copying, and additionally writes the logger's context
fields into that caller map — so a later mutation of the caller's map
changes the buffered entry's fields. -/
theorem C4_fieldsAliased (h : Heap) (lg : LoggerInst) (level : LogLevel)
    (msg : String) (ts : Int) (r : Nat) (hr : r < h.maps.length) :
    SharedFieldsMap h lg level msg ts r :=
  ⟨rfl, heap_get_set_at h r _ hr⟩

/-- C4 witness: the aliasing fact at a concrete two-map heap. -/
theorem C4_fieldsAliased_witness :
    ((1 : Nat) < (Heap.mk [[], [("a", GoValue.int 1)]]).maps.length) ∧
    SharedFieldsMap ⟨[[], [("a", GoValue.int 1)]]⟩ ⟨"svc", 0⟩ .INFO "m" 0
      1 :=
  ⟨by decide, C4_fieldsAliased ⟨[[], [("a", GoValue.int 1)]]⟩ ⟨"svc", 0⟩
    .INFO "m" 0 1 (by decide)⟩

/-- C5: while the worker is running, a dequeued entry is appended to the
in-progress batch and that batch is flushed immediately; a run over any
sequence of arrivals starting from an empty batch makes exactly one
delivery call per entry, each carrying that one entry, in submission
order (so 10 entries give 10 singleton delivery calls in order). -/
theorem C5_arrivalFlush (s : WorkerState) (e : LogEntry)
    (entries : List LogEntry) (hrun : s.stopped = false) :
    ArrivalFlush s e entries := by
  obtain ⟨b, d, st⟩ := s
  subst hrun
  constructor
  · simp [workerStep]
  · intro hb
    subst hb
    exact workerRun_arrivals entries d

/-- C5 witness: ten entries arriving in rapid succession at a fresh
worker produce ten singleton deliveries in order. -/
theorem C5_arrivalFlush_witness :
    ((⟨[], [], false⟩ : WorkerState).stopped = false) ∧
    ArrivalFlush ⟨[], [], false⟩ eDemo tenEntries :=
  ⟨rfl, C5_arrivalFlush ⟨[], [], false⟩ eDemo tenEntries rfl⟩

theorem allocIndependent (h : Heap) (m : FieldsMap) (pr : Nat)
    (hpr : pr < h.maps.length) :
    IndependentCopy h (h.alloc m).1 pr (h.alloc m).2 ∧
      (h.alloc m).1.get (h.alloc m).2 = m := by
  have hne : (h.alloc m).2 ≠ pr := by
    simp only [Heap.alloc]
    omega
  refine ⟨⟨hne, heap_get_alloc_old h m pr hpr, ?_, ?_⟩,
    heap_get_alloc_new h m⟩
  · intro k v
    exact heap_get_set_other _ _ _ _ hne
  · intro k v
    exact heap_get_set_other _ _ _ _ (fun hq => hne hq.symm)

/-- C6: each of `WithFields`, `WithService` and `WithContext` gives the
derived logger a fresh context-field map — the parent's copy merged with
the given fields — at a reference distinct from the parent's, so writing
a field through either logger's map never shows through the other's. -/
theorem C6_copyOnDerive (h : Heap) (lg : LoggerInst) (fields : FieldsMap)
    (service : String) (hWF : lg.ctxRef < h.maps.length) :
    CopyOnDerive h lg fields service :=
  ⟨allocIndependent h _ lg.ctxRef hWF,
   allocIndependent h _ lg.ctxRef hWF,
   allocIndependent h _ lg.ctxRef hWF⟩

/-- C6 witness: derivations from a logger owning `{"a": 1}` on a
one-map heap. -/
theorem C6_copyOnDerive_witness :
    ((LoggerInst.ctxRef ⟨"svc", 0⟩) <
      (Heap.mk [[("a", GoValue.int 1)]]).maps.length) ∧
    CopyOnDerive ⟨[[("a", GoValue.int 1)]]⟩ ⟨"svc", 0⟩
      [("b", GoValue.int 2)] "other-svc" :=
  ⟨by decide, C6_copyOnDerive ⟨[[("a", GoValue.int 1)]]⟩ ⟨"svc", 0⟩
    [("b", GoValue.int 2)] "other-svc" (by decide)⟩

/-- C7: with the buffer at capacity, the per-level async path drops the
entry silently — the non-blocking offer leaves the buffer unchanged and
the call completes with nothing reported — while `BatchLog` returns the
distinct "buffer full" error to its caller. -/
theorem C7_bufferFull (h : Heap) (lg : LoggerInst) (buf : Buffer)
    (ctx : GoContext) (level : LogLevel) (msg : String) (ts : Int)
    (r : Nat) (e : LogEntry) (rest : List LogEntry) (cfg : LoggerConfig)
    (sender : Nat → Bool) (hfull : buf.cap ≤ buf.items.length) :
    Backpressure h lg buf ctx level msg ts r e rest cfg sender := by
  have hnolt : ¬ buf.items.length < buf.cap := Nat.not_lt.mpr hfull
  refine ⟨?_, ?_, ?_⟩
  · simp [Buffer.offer, hnolt]
  · refine ⟨h.set r (writeAll (h.get r) (h.get lg.ctxRef)), ?_⟩
    simp [logAsync, logProduce, createLogEntry, Buffer.offer, hnolt]
  · intro hasync
    simp [BatchLog, hasync, offerAll, Buffer.offer, hnolt]

/-- C7 witness: a capacity-1 buffer already holding one entry. -/
theorem C7_bufferFull_witness :
    ((Buffer.mk 1 [eDemo]).cap ≤ (Buffer.mk 1 [eDemo]).items.length) ∧
    Backpressure ⟨[[]]⟩ ⟨"svc", 0⟩ ⟨1, [eDemo]⟩ [] .INFO "m" 0 0 eDemo []
      ⟨true, 3⟩ (fun _ => true) :=
  ⟨by decide, C7_bufferFull ⟨[[]]⟩ ⟨"svc", 0⟩ ⟨1, [eDemo]⟩ [] .INFO "m" 0
    0 eDemo [] ⟨true, 3⟩ (fun _ => true) (by decide)⟩

/-- C8: when one entry of a batch fails JSON serialization, only its
line is omitted — the payload is exactly the other entries' lines in
order — and the batch is still delivered through the retry loop; the
failure does not abort the batch. -/
theorem C8_skipBadEntry (h : Heap) (pre post : List LogEntry)
    (bad : LogEntry) (mr : Nat) (sender : Nat → Bool)
    (hbad : marshalEntry h bad = none) :
    SkipBadEntry h pre post bad mr sender := by
  have hpay : buildPayload h (pre ++ bad :: post) =
      buildPayload h pre ++ buildPayload h post := by
    rw [buildPayload_append, buildPayload_cons_none h bad post hbad]
  have hne : pre ++ bad :: post ≠ [] := by simp
  exact ⟨hpay, by simp only [sendBatch, if_neg hne, hpay]⟩

/-- C8 witness: a middle entry carrying an unserializable field value
between two good entries. -/
theorem C8_skipBadEntry_witness :
    (marshalEntry ⟨[[("u", GoValue.unserializable)]]⟩
      { eDemo with Fields := some 0 } = none) ∧
    SkipBadEntry ⟨[[("u", GoValue.unserializable)]]⟩ [eDemo] [eDemo]
      { eDemo with Fields := some 0 } 1 (fun _ => true) :=
  ⟨rfl, C8_skipBadEntry ⟨[[("u", GoValue.unserializable)]]⟩ [eDemo]
    [eDemo] { eDemo with Fields := some 0 } 1 (fun _ => true) rfl⟩

theorem applyCorrelation_traceID (ctx : GoContext) (e : LogEntry) :
    (applyCorrelation ctx e).TraceID =
      (match ctxValue ctx "trace_id" with
       | some (CtxVal.str t) => t
       | _ => e.TraceID) := by
  unfold applyCorrelation
  rcases ctxValue ctx "trace_id" with _ | tv
  · rcases ctxValue ctx "user_id" with _ | uv
    · rfl
    · cases uv <;> rfl
  · cases tv <;> rcases ctxValue ctx "user_id" with _ | uv <;>
      first | rfl | (cases uv <;> rfl)

theorem applyCorrelation_userID (ctx : GoContext) (e : LogEntry) :
    (applyCorrelation ctx e).UserID =
      (match ctxValue ctx "user_id" with
       | some (CtxVal.str u) => u
       | _ => e.UserID) := by
  unfold applyCorrelation
  rcases ctxValue ctx "trace_id" with _ | tv
  · rcases ctxValue ctx "user_id" with _ | uv
    · rfl
    · cases uv <;> rfl
  · cases tv <;> rcases ctxValue ctx "user_id" with _ | uv <;>
      first | rfl | (cases uv <;> rfl)

/-- C9: a per-level call with a non-nil fields map always completes,
and the produced entry's `TraceID` (resp. `UserID`) equals the context's
"trace_id" (resp. "user_id") value when that value exists and is text,
and is empty when the key is absent or its value is not text — in
particular a context with only `trace_id="trace_abc123"` yields
`TraceID="trace_abc123"` and an empty `UserID`. -/
theorem C9_correlation (h : Heap) (lg : LoggerInst) (ctx : GoContext)
    (level : LogLevel) (msg : String) (ts : Int) (r : Nat) :
    ∃ h2 e, logProduce h lg ctx level msg ts (some r) = some (h2, e) ∧
      e.TraceID = (match ctxValue ctx "trace_id" with
                   | some (CtxVal.str t) => t
                   | _ => "") ∧
      e.UserID = (match ctxValue ctx "user_id" with
                  | some (CtxVal.str u) => u
                  | _ => "") := by
  refine ⟨_, _, rfl, ?_, ?_⟩
  · exact applyCorrelation_traceID ctx _
  · exact applyCorrelation_userID ctx _

/-- C10: the logger holds the non-empty context field
`request_id="r1"`; a per-level call passing a nil fields map faults —
`createLogEntry` writes the context fields into the caller's nil map,
which is a Go panic (assignment to entry in nil map) — so the call does
not complete. -/
theorem C10_nilMapPanic :
    createLogEntry ⟨[[("request_id", GoValue.str "r1")]]⟩ ⟨"demo-api", 0⟩
      .INFO "m" 0 none = none ∧
    logAsync ⟨[[("request_id", GoValue.str "r1")]]⟩ ⟨"demo-api", 0⟩
      ⟨500, []⟩ [] .INFO "m" 0 none = none := by
  constructor <;> rfl

end VictoriaLogs
